import Mathlib

/-
Verification of the circuit-evaluation core of the `simulator` repository.

The definitions below are a shallow embedding of
`src/client/src/lib/experiments.ts` (experiment logic functions, the
`createOrthogonalWire` helper and the per-experiment `getWires` functions)
and `src/client/src/lib/ic-pins.ts` (the DIP pin layout helper and the
`IC_LIBRARY` registry).

Embedding conventions:
* JavaScript booleans become `Bool`; integer-valued number fields become
  `Nat` (they are non-negative in every reachable state).  Where the source
  subtracts before taking `%` (the counter decrement), the computation is
  carried out in `Int` with `Int.tmod`, the exact semantics of the
  JavaScript `%` operator (truncated remainder), and converted back.
* `state.count || 0` (and the analogous `|| 0` reads) is the identity on a
  number-valued field for every value arising here (the field is always a
  non-negative number once initialised), so it is embedded as the plain
  field read.
* JavaScript record lookup `r[k]` is embedded as association-list lookup
  returning `false` for an absent key (an absent key yields `undefined`,
  which is falsy in every position where the result is consumed).
* Screen coordinates are embedded as rationals (`ℚ`); the only arithmetic
  performed on them is addition and halving.
* The combinational experiments' arrow functions do not declare the third
  (`clockEdge`) parameter; the caller still passes it, so the embedding
  keeps an ignored `clockEdge` argument to match the call interface.
-/

namespace Simulator

/-- A 2-D point of a wire polyline (`{x, y}` in the source). -/
structure Point where
  x : ℚ
  y : ℚ
deriving DecidableEq

/-- A renderable wire: `{ points, active, delay }` in `experiments.ts`. -/
structure Wire where
  points : List Point
  active : Bool
  delay : ℚ
deriving DecidableEq

/-- Layout geometry supplied by the rendering collaborator
(`LayoutMetrics` in `experiments.ts`). -/
structure LayoutMetrics where
  inputPositions : List Point
  outputPositions : List Point
  chipLeft : ℚ
  chipRight : ℚ
  chipCenter : ℚ
deriving DecidableEq

/-- `createOrthogonalWire(fromX, fromY, toX, toY, active, delay)` from
`experiments.ts`: a 4-point orthogonal polyline through the horizontal
midpoint. -/
def createOrthogonalWire (fromX fromY toX toY : ℚ) (active : Bool) (delay : ℚ) : Wire :=
  let midX := (fromX + toX) / 2
  { points := [⟨fromX, fromY⟩, ⟨midX, fromY⟩, ⟨midX, toY⟩, ⟨toX, toY⟩]
    active := active
    delay := delay }

/-- JavaScript record access `r[k]` on a `Record<string, boolean>`,
embedded as association-list lookup; a missing key yields `undefined`,
which is falsy wherever the result is consumed, hence `false`. -/
def recordGet (r : List (String × Bool)) (k : String) : Bool :=
  match r.find? (fun p => p.1 == k) with
  | some p => p.2
  | none => false

/-- `Array.prototype.forEach((elem, idx) => ...)` collecting one result per
element, threading the element index. -/
def forEachIdx {α β : Type} (f : Nat → α → β) : Nat → List α → List β
  | _, [] => []
  | i, a :: as => f i a :: forEachIdx f (i + 1) as

/-- The shape shared by all ten `getWires` functions in `experiments.ts`:
one `createOrthogonalWire` per entry of `layout.inputPositions` (keyed by
the experiment's input-key array) followed by one per entry of
`layout.outputPositions` (keyed by the output-key array).  Input wires use
delay `0`, output wires delay `0.3`. -/
def getWiresGeneric (inputKeys outputKeys : List String)
    (inputs outputs : List (String × Bool)) (layout : LayoutMetrics) : List Wire :=
  forEachIdx
    (fun idx pos =>
      createOrthogonalWire pos.x pos.y layout.chipLeft pos.y
        (recordGet inputs (inputKeys.getD idx (""))) 0)
    0 layout.inputPositions
  ++
  forEachIdx
    (fun idx pos =>
      createOrthogonalWire layout.chipRight pos.y pos.x pos.y
        (recordGet outputs (outputKeys.getD idx (""))) (3 / 10))
    0 layout.outputPositions

/-- Metadata of one entry of the `experiments` array: its `id`, its
`hasClock` flag (`false` when the field is absent), and the declared
input/output ids in declaration order.  In every experiment the key
arrays inside `getWires` coincide verbatim with the declared id lists. -/
structure ExperimentMeta where
  id : String
  hasClock : Bool
  inputIds : List String
  outputIds : List String
deriving DecidableEq

/-- The `experiments` array of `experiments.ts`, in source order. -/
def experiments : List ExperimentMeta :=
  [ ⟨("logic-gates"), false, [("A"), ("B"), ("C")], [("Y")]⟩,
    ⟨("full-adder"), false, [("A"), ("B"), ("Cin")], [("Sum"), ("Cout")]⟩,
    ⟨("multiplexer"), false, [("Select"), ("In0"), ("In1")], [("Y")]⟩,
    ⟨("priority-encoder"), false, [("I0"), ("I1"), ("I2"), ("I3")], [("Y1"), ("Y0")]⟩,
    ⟨("sr-latch"), false, [("Set1"), ("Set2"), ("Set3"), ("Reset")], [("Q1"), ("Q2"), ("Q3")]⟩,
    ⟨("counter"), true, [("CountUp"), ("CountDown")], [("Q3"), ("Q2"), ("Q1"), ("Q0")]⟩,
    ⟨("shift-register"), true, [("Data")],
      [("Q0"), ("Q1"), ("Q2"), ("Q3"), ("Q4"), ("Q5"), ("Q6"), ("Q7")]⟩,
    ⟨("sequence-detector"), true, [("Bit"), ("Reset")], [("Detected")]⟩,
    ⟨("fsm-accumulator"), true, [("Add1"), ("Add2"), ("Reset")], [("Overflow"), ("Carry")]⟩,
    ⟨("traffic-light"), true, [("Override")],
      [("R1"), ("Y1"), ("G1"), ("R2"), ("Y2"), ("G2")]⟩ ]

/-- Logic of the `logic-gates` experiment: `Y = (A && B) || C`,
`newState: state`.  The state type is a parameter because the function
never inspects the state object. -/
def logicGatesLogic {σ : Type} (a b c : Bool) (state : σ) (_clockEdge : Bool) : Bool × σ :=
  ((a && b) || c, state)

/-- Output record of the `full-adder` experiment. -/
structure AdderOutputs where
  sum : Bool
  cout : Bool
deriving DecidableEq

/-- Logic of the `full-adder` experiment:
`Sum = A !== B !== Cin` (left-associated) and
`Cout = (A && B) || (Cin && (A !== B))`, `newState: state`. -/
def fullAdderLogic {σ : Type} (a b cin : Bool) (state : σ) (_clockEdge : Bool) :
    AdderOutputs × σ :=
  ({ sum := (a != b) != cin
     cout := (a && b) || (cin && (a != b)) }, state)

/-- Logic of the `multiplexer` experiment: `Y = Select ? In1 : In0`,
`newState: state`. -/
def multiplexerLogic {σ : Type} (select in0 in1 : Bool) (state : σ) (_clockEdge : Bool) :
    Bool × σ :=
  (if select then in1 else in0, state)

/-- Logic of the `priority-encoder` experiment: the `I3 > I2 > I1 > I0`
if-chain producing the 2-bit code `(Y1, Y0)`, `newState: state`. -/
def priorityEncoderLogic {σ : Type} (i0 i1 i2 i3 : Bool) (state : σ) (_clockEdge : Bool) :
    (Bool × Bool) × σ :=
  let outputs :=
    if i3 then (true, true)
    else if i2 then (true, false)
    else if i1 then (false, true)
    else if i0 then (false, false)
    else (false, false)
  (outputs, state)

/-- Logic of the `sr-latch` experiment (state `{Q1, Q2, Q3}`): `Reset`
clears all three outputs, otherwise each asserted `Set` latches its
output to `true`; outputs equal the new state. -/
def srLatchLogic (set1 set2 set3 reset : Bool) (q1 q2 q3 : Bool) (_clockEdge : Bool) :
    (Bool × Bool × Bool) × (Bool × Bool × Bool) :=
  let newQ1 := if reset then false else if set1 then true else q1
  let newQ2 := if reset then false else if set2 then true else q2
  let newQ3 := if reset then false else if set3 then true else q3
  ((newQ1, newQ2, newQ3), (newQ1, newQ2, newQ3))

/-- Output record of the `counter` experiment (`Q3..Q0`, MSB first). -/
structure CounterOutputs where
  q3 : Bool
  q2 : Bool
  q1 : Bool
  q0 : Bool
deriving DecidableEq

/-- Logic of the `counter` experiment.  On a clock edge the count is
incremented `% 16`, decremented via `(count - 1 + 16) % 16`, or held; the
decrement is computed in `Int` with `Int.tmod` (JavaScript `%`).  Outputs
are `Boolean(newCount & 8)` down to `Boolean(newCount & 1)`. -/
def counterLogic (countUp countDown : Bool) (count : Nat) (clockEdge : Bool) :
    CounterOutputs × Nat :=
  let newCount : Nat :=
    if clockEdge then
      if countUp && !countDown then (count + 1) % 16
      else if countDown && !countUp then (((count : Int) - 1 + 16).tmod 16).toNat
      else count
    else count
  ({ q3 := (newCount &&& 8) != 0
     q2 := (newCount &&& 4) != 0
     q1 := (newCount &&& 2) != 0
     q0 := (newCount &&& 1) != 0 }, newCount)

/-- Output record of the `shift-register` experiment (`Q0..Q7`). -/
structure ShiftOutputs where
  q0 : Bool
  q1 : Bool
  q2 : Bool
  q3 : Bool
  q4 : Bool
  q5 : Bool
  q6 : Bool
  q7 : Bool
deriving DecidableEq

/-- Logic of the `shift-register` experiment: on a clock edge
`register = ((register << 1) | (Data ? 1 : 0)) & 0xFF`; outputs are
`Boolean((register >> k) & 1)` for `k = 0..7`. -/
def shiftRegLogic (data : Bool) (register : Nat) (clockEdge : Bool) : ShiftOutputs × Nat :=
  let newRegister : Nat :=
    if clockEdge then ((register <<< 1) ||| (if data then 1 else 0)) &&& 0xFF
    else register
  ({ q0 := ((newRegister >>> 0) &&& 1) != 0
     q1 := ((newRegister >>> 1) &&& 1) != 0
     q2 := ((newRegister >>> 2) &&& 1) != 0
     q3 := ((newRegister >>> 3) &&& 1) != 0
     q4 := ((newRegister >>> 4) &&& 1) != 0
     q5 := ((newRegister >>> 5) &&& 1) != 0
     q6 := ((newRegister >>> 6) &&& 1) != 0
     q7 := ((newRegister >>> 7) &&& 1) != 0 }, newRegister)

/-- The `Detected` test of the `sequence-detector` experiment:
`history.length === 3 && history[0] === 1 && history[1] === 0 &&
history[2] === 1` (an out-of-range index yields `undefined`, embedded as
the default `2`, which matches neither `0` nor `1`). -/
def seqDetectCheck (history : List Nat) : Bool :=
  history.length == 3 && history.getD 0 2 == 1 && history.getD 1 2 == 0 && history.getD 2 2 == 1

/-- Logic of the `sequence-detector` experiment (state: `history`, a FIFO
of the last up-to-3 clocked bit samples).  `Reset` clears the history
before the clock is consulted; on a clock edge the current bit sample is
pushed and, when the length exceeds 3, the oldest entry is shifted off. -/
def seqDetLogic (bit reset : Bool) (history : List Nat) (clockEdge : Bool) :
    Bool × List Nat :=
  let newHistory : List Nat :=
    if reset then []
    else if clockEdge then
      let pushed := history ++ [if bit then 1 else 0]
      if pushed.length > 3 then pushed.drop 1 else pushed
    else history
  (seqDetectCheck newHistory, newHistory)

/-- Output record of the `fsm-accumulator` experiment. -/
structure FsmOutputs where
  overflow : Bool
  carry : Bool
deriving DecidableEq

/-- Logic of the `fsm-accumulator` experiment: `Reset` zeroes the
accumulator before the clock is consulted; on a clock edge
`acc = (acc + (Add1 ? 1 : 0) + (Add2 ? 2 : 0)) % 16`.
`Overflow = acc >= 15`, `Carry = acc > 0`. -/
def fsmAccLogic (add1 add2 reset : Bool) (accumulator : Nat) (clockEdge : Bool) :
    FsmOutputs × Nat :=
  let acc : Nat :=
    if reset then 0
    else if clockEdge then
      (accumulator + ((if add1 then 1 else 0) + (if add2 then 2 else 0))) % 16
    else accumulator
  ({ overflow := decide (acc ≥ 15), carry := decide (acc > 0) }, acc)

/-- Output record of the `traffic-light` experiment (six LEDs). -/
structure TrafficOutputs where
  r1 : Bool
  y1 : Bool
  g1 : Bool
  r2 : Bool
  y2 : Bool
  g2 : Bool
deriving DecidableEq

/-- Logic of the `traffic-light` experiment (state `{state, subCycle}`).
`Override` is checked first and returns the all-red-and-yellow pattern
with the state fields passed through.  Otherwise, on a clock edge the
sub-cycle increments; on reaching 3 it resets to 0 and the state advances
`(state + 1) % 4`.  Outputs follow the 4-case switch with its default. -/
def trafficLogic (override : Bool) (st subCycle : Nat) (clockEdge : Bool) :
    TrafficOutputs × (Nat × Nat) :=
  if override then
    ({ r1 := true, y1 := true, g1 := false, r2 := true, y2 := true, g2 := false },
      (st, subCycle))
  else
    let next : Nat × Nat :=
      if clockEdge then
        let bumped := subCycle + 1
        if bumped ≥ 3 then ((st + 1) % 4, 0) else (st, bumped)
      else (st, subCycle)
    let outputs : TrafficOutputs :=
      match next.1 with
      | 0 => { r1 := false, y1 := false, g1 := true, r2 := true, y2 := false, g2 := false }
      | 1 => { r1 := false, y1 := true, g1 := false, r2 := true, y2 := false, g2 := false }
      | 2 => { r1 := true, y1 := false, g1 := false, r2 := false, y2 := false, g2 := true }
      | 3 => { r1 := true, y1 := false, g1 := false, r2 := false, y2 := true, g2 := false }
      | _ => { r1 := true, y1 := false, g1 := false, r2 := true, y2 := false, g2 := false }
    (outputs, next)

/-- Pin `type` field of `ic-pins.ts`. -/
inductive PinKind where
  | input
  | output
  | power
  | ground
  | clock
  | control
deriving DecidableEq, BEq

/-- A pin as written in the `createDIPPins` argument lists of
`ic-pins.ts`: `{ number, label, type }` (side and position are derived). -/
structure PinDef where
  number : Nat
  label : String
  type : PinKind
deriving DecidableEq

/-- Chip side of a pin. -/
inductive PinSide where
  | left
  | right
deriving DecidableEq, BEq

/-- A fully laid-out pin (`ICPin` in `ic-pins.ts`). -/
structure ICPin where
  number : Nat
  label : String
  type : PinKind
  side : PinSide
  position : Nat
deriving DecidableEq

/-- `createDIPPins(pinCount, pinDefs)` from `ic-pins.ts`: standard DIP
numbering — pins `1..N/2` on the left, top to bottom (`position =
number - 1`), pins `N/2+1..N` on the right, bottom to top (`position =
pinCount - number`). -/
def createDIPPins (pinCount : Nat) (pinDefs : List PinDef) : List ICPin :=
  let pinsPerSide := pinCount / 2
  pinDefs.map (fun d =>
    if d.number ≤ pinsPerSide then
      { number := d.number, label := d.label, type := d.type,
        side := PinSide.left, position := d.number - 1 }
    else
      { number := d.number, label := d.label, type := d.type,
        side := PinSide.right, position := pinCount - d.number })

/-- An IC package of the registry (`ICPackage` in `ic-pins.ts`). -/
structure ICPackage where
  partNumber : String
  name : String
  pinCount : Nat
  pins : List ICPin
deriving DecidableEq

/-- The `IC_LIBRARY` registry of `ic-pins.ts` (values in declaration
order; the record key equals the `partNumber` field). -/
def IC_LIBRARY : List ICPackage :=
  [ { partNumber := ("7408"), name := ("Quad 2-Input AND"), pinCount := 14,
      pins := createDIPPins 14
        [ ⟨1, ("1A"), .input⟩, ⟨2, ("1B"), .input⟩, ⟨3, ("1Y"), .output⟩,
          ⟨4, ("2A"), .input⟩, ⟨5, ("2B"), .input⟩, ⟨6, ("2Y"), .output⟩,
          ⟨7, ("GND"), .ground⟩, ⟨8, ("3Y"), .output⟩, ⟨9, ("3A"), .input⟩,
          ⟨10, ("3B"), .input⟩, ⟨11, ("4Y"), .output⟩, ⟨12, ("4A"), .input⟩,
          ⟨13, ("4B"), .input⟩, ⟨14, ("VCC"), .power⟩ ] },
    { partNumber := ("7432"), name := ("Quad 2-Input OR"), pinCount := 14,
      pins := createDIPPins 14
        [ ⟨1, ("1A"), .input⟩, ⟨2, ("1B"), .input⟩, ⟨3, ("1Y"), .output⟩,
          ⟨4, ("2A"), .input⟩, ⟨5, ("2B"), .input⟩, ⟨6, ("2Y"), .output⟩,
          ⟨7, ("GND"), .ground⟩, ⟨8, ("3Y"), .output⟩, ⟨9, ("3A"), .input⟩,
          ⟨10, ("3B"), .input⟩, ⟨11, ("4Y"), .output⟩, ⟨12, ("4A"), .input⟩,
          ⟨13, ("4B"), .input⟩, ⟨14, ("VCC"), .power⟩ ] },
    { partNumber := ("7483"), name := ("4-Bit Full Adder"), pinCount := 16,
      pins := createDIPPins 16
        [ ⟨1, ("A4"), .input⟩, ⟨2, ("Σ3"), .output⟩, ⟨3, ("A3"), .input⟩,
          ⟨4, ("B3"), .input⟩, ⟨5, ("VCC"), .power⟩, ⟨6, ("Σ2"), .output⟩,
          ⟨7, ("B2"), .input⟩, ⟨8, ("A2"), .input⟩, ⟨9, ("Σ1"), .output⟩,
          ⟨10, ("A1"), .input⟩, ⟨11, ("B1"), .input⟩, ⟨12, ("GND"), .ground⟩,
          ⟨13, ("C0"), .input⟩, ⟨14, ("C4"), .output⟩, ⟨15, ("Σ4"), .output⟩,
          ⟨16, ("B4"), .input⟩ ] },
    { partNumber := ("74157"), name := ("Quad 2-to-1 MUX"), pinCount := 16,
      pins := createDIPPins 16
        [ ⟨1, ("SEL"), .control⟩, ⟨2, ("1A"), .input⟩, ⟨3, ("1B"), .input⟩,
          ⟨4, ("1Y"), .output⟩, ⟨5, ("2A"), .input⟩, ⟨6, ("2B"), .input⟩,
          ⟨7, ("2Y"), .output⟩, ⟨8, ("GND"), .ground⟩, ⟨9, ("3Y"), .output⟩,
          ⟨10, ("3B"), .input⟩, ⟨11, ("3A"), .input⟩, ⟨12, ("4Y"), .output⟩,
          ⟨13, ("4B"), .input⟩, ⟨14, ("4A"), .input⟩, ⟨15, ("EN"), .control⟩,
          ⟨16, ("VCC"), .power⟩ ] },
    { partNumber := ("74147"), name := ("10-to-4 Priority Encoder"), pinCount := 16,
      pins := createDIPPins 16
        [ ⟨1, ("I4"), .input⟩, ⟨2, ("I5"), .input⟩, ⟨3, ("I6"), .input⟩,
          ⟨4, ("I7"), .input⟩, ⟨5, ("I8"), .input⟩, ⟨6, ("D"), .output⟩,
          ⟨7, ("C"), .output⟩, ⟨8, ("GND"), .ground⟩, ⟨9, ("B"), .output⟩,
          ⟨10, ("A"), .output⟩, ⟨11, ("I9"), .input⟩, ⟨12, ("I1"), .input⟩,
          ⟨13, ("I2"), .input⟩, ⟨14, ("I3"), .input⟩, ⟨15, ("I0"), .input⟩,
          ⟨16, ("VCC"), .power⟩ ] },
    { partNumber := ("7475"), name := ("4-Bit Latch"), pinCount := 16,
      pins := createDIPPins 16
        [ ⟨1, ("Q0"), .output⟩, ⟨2, ("~Q0"), .output⟩, ⟨3, ("D0"), .input⟩,
          ⟨4, ("D1"), .input⟩, ⟨5, ("VCC"), .power⟩, ⟨6, ("D2"), .input⟩,
          ⟨7, ("D3"), .input⟩, ⟨8, ("EN34"), .control⟩, ⟨9, ("Q3"), .output⟩,
          ⟨10, ("~Q3"), .output⟩, ⟨11, ("Q2"), .output⟩, ⟨12, ("GND"), .ground⟩,
          ⟨13, ("EN12"), .control⟩, ⟨14, ("~Q2"), .output⟩, ⟨15, ("Q1"), .output⟩,
          ⟨16, ("~Q1"), .output⟩ ] },
    { partNumber := ("74193"), name := ("4-Bit Up/Down Counter"), pinCount := 16,
      pins := createDIPPins 16
        [ ⟨1, ("B"), .input⟩, ⟨2, ("QB"), .output⟩, ⟨3, ("QA"), .output⟩,
          ⟨4, ("DOWN"), .clock⟩, ⟨5, ("UP"), .clock⟩, ⟨6, ("QC"), .output⟩,
          ⟨7, ("QD"), .output⟩, ⟨8, ("GND"), .ground⟩, ⟨9, ("D"), .input⟩,
          ⟨10, ("C"), .input⟩, ⟨11, ("LOAD"), .control⟩, ⟨12, ("CO"), .output⟩,
          ⟨13, ("BO"), .output⟩, ⟨14, ("CLR"), .control⟩, ⟨15, ("A"), .input⟩,
          ⟨16, ("VCC"), .power⟩ ] },
    { partNumber := ("74164"), name := ("8-Bit SIPO Shift Register"), pinCount := 14,
      pins := createDIPPins 14
        [ ⟨1, ("A"), .input⟩, ⟨2, ("B"), .input⟩, ⟨3, ("QA"), .output⟩,
          ⟨4, ("QB"), .output⟩, ⟨5, ("QC"), .output⟩, ⟨6, ("QD"), .output⟩,
          ⟨7, ("GND"), .ground⟩, ⟨8, ("CLK"), .clock⟩, ⟨9, ("CLR"), .control⟩,
          ⟨10, ("QE"), .output⟩, ⟨11, ("QF"), .output⟩, ⟨12, ("QG"), .output⟩,
          ⟨13, ("QH"), .output⟩, ⟨14, ("VCC"), .power⟩ ] },
    { partNumber := ("SEQ101"), name := ("Sequence Detector"), pinCount := 14,
      pins := createDIPPins 14
        [ ⟨1, ("BIT"), .input⟩, ⟨2, ("RST"), .control⟩, ⟨3, ("S0"), .output⟩,
          ⟨4, ("S1"), .output⟩, ⟨5, ("S2"), .output⟩, ⟨6, ("DET"), .output⟩,
          ⟨7, ("GND"), .ground⟩, ⟨8, ("CLK"), .clock⟩, ⟨9, ("NC"), .control⟩,
          ⟨10, ("NC"), .control⟩, ⟨11, ("NC"), .control⟩, ⟨12, ("NC"), .control⟩,
          ⟨13, ("NC"), .control⟩, ⟨14, ("VCC"), .power⟩ ] },
    { partNumber := ("FSM4"), name := ("FSM Accumulator"), pinCount := 14,
      pins := createDIPPins 14
        [ ⟨1, ("ADD1"), .input⟩, ⟨2, ("ADD2"), .input⟩, ⟨3, ("RST"), .control⟩,
          ⟨4, ("A0"), .output⟩, ⟨5, ("A1"), .output⟩, ⟨6, ("A2"), .output⟩,
          ⟨7, ("GND"), .ground⟩, ⟨8, ("CLK"), .clock⟩, ⟨9, ("A3"), .output⟩,
          ⟨10, ("OVF"), .output⟩, ⟨11, ("CRY"), .output⟩, ⟨12, ("NC"), .control⟩,
          ⟨13, ("NC"), .control⟩, ⟨14, ("VCC"), .power⟩ ] },
    { partNumber := ("TRAF6"), name := ("Traffic Light FSM"), pinCount := 16,
      pins := createDIPPins 16
        [ ⟨1, ("OVR"), .input⟩, ⟨2, ("R1"), .output⟩, ⟨3, ("Y1"), .output⟩,
          ⟨4, ("G1"), .output⟩, ⟨5, ("VCC"), .power⟩, ⟨6, ("R2"), .output⟩,
          ⟨7, ("Y2"), .output⟩, ⟨8, ("G2"), .output⟩, ⟨9, ("S0"), .output⟩,
          ⟨10, ("S1"), .output⟩, ⟨11, ("NC"), .control⟩, ⟨12, ("GND"), .ground⟩,
          ⟨13, ("CLK"), .clock⟩, ⟨14, ("NC"), .control⟩, ⟨15, ("NC"), .control⟩,
          ⟨16, ("NC"), .control⟩ ] } ]

/-! Specification-side definitions.  Each of the following is written
from the wording of the specification / claims, to be compared with the
source-derived definitions above. -/

/-- Spec wording (counter): the next count is `(c+1) mod 16` when only
CountUp is asserted, `(c-1+16) mod 16` when only CountDown is asserted
(here in `Int` with the mathematical `%`, i.e. `Int.emod`), and `c`
unchanged otherwise or without a clock edge. -/
def counterCountSpec (up down : Bool) (c : Nat) (edge : Bool) : Nat :=
  if edge then
    if up && !down then (c + 1) % 16
    else if down && !up then (((c : Int) - 1 + 16) % 16).toNat
    else c
  else c

/-- Spec wording: binary digit `k` of `n` (`true` iff the digit is 1). -/
def bitSpec (n k : Nat) : Bool :=
  decide (n / 2 ^ k % 2 = 1)

/-- Spec wording (counter outputs): `Q3,Q2,Q1,Q0` are the binary digits
of the count, MSB first. -/
def counterDigitsSpec (n : Nat) : CounterOutputs :=
  { q3 := bitSpec n 3, q2 := bitSpec n 2, q1 := bitSpec n 1, q0 := bitSpec n 0 }

/-- One CountUp clock edge of the counter, acting on the count state. -/
def counterUpStep (c : Nat) : Nat :=
  (counterLogic true false c true).2

/-- Spec wording (sequence detector): append the current bit sample (as
1 or 0) and drop the oldest element when the length would exceed 3. -/
def seqHistorySpec (bit : Bool) (history : List Nat) : List Nat :=
  let appended := history ++ [if bit then 1 else 0]
  if 3 < appended.length then appended.tail else appended

/-- Run the sequence detector over a list of clocked bit samples (no
reset), returning the Detected flags of the successive edges and the
final history. -/
def seqDetRun (history : List Nat) (bits : List Bool) : List Bool × List Nat :=
  match bits with
  | [] => ([], history)
  | b :: rest =>
    let step := seqDetLogic b false history true
    let tailRun := seqDetRun step.2 rest
    (step.1 :: tailRun.1, tailRun.2)

/-- Clock a list of bits into the shift register, oldest first. -/
def shiftRegRun (register : Nat) (bits : List Bool) : Nat :=
  bits.foldl (fun acc b => (shiftRegLogic b acc true).2) register

/-- Spec wording (wire derivation, input wire): a 4-point polyline from
the input's anchor to the chip's left edge at the anchor's height, with
the bend at the arithmetic mean of the two x-coordinates; `active` is the
corresponding input signal's value; delay 0. -/
def inputWireSpec (inputs : List (String × Bool)) (chipLeft : ℚ) (key : String)
    (pos : Point) : Wire :=
  { points := [⟨pos.x, pos.y⟩, ⟨(pos.x + chipLeft) / 2, pos.y⟩,
               ⟨(pos.x + chipLeft) / 2, pos.y⟩, ⟨chipLeft, pos.y⟩]
    active := recordGet inputs key
    delay := 0 }

/-- Spec wording (wire derivation, output wire): a 4-point polyline from
the chip's right edge at the output's height to the output's anchor,
with the bend at the arithmetic mean of the two x-coordinates; `active`
is the corresponding output signal's value; fixed non-zero delay. -/
def outputWireSpec (outputs : List (String × Bool)) (chipRight : ℚ) (key : String)
    (pos : Point) : Wire :=
  { points := [⟨chipRight, pos.y⟩, ⟨(chipRight + pos.x) / 2, pos.y⟩,
               ⟨(chipRight + pos.x) / 2, pos.y⟩, ⟨pos.x, pos.y⟩]
    active := recordGet outputs key
    delay := 3 / 10 }

/-- Spec wording (wire derivation): one wire per declared input in
declaration order, followed by one wire per declared output in
declaration order. -/
def wiresSpec (inputKeys outputKeys : List String)
    (inputs outputs : List (String × Bool)) (layout : LayoutMetrics) : List Wire :=
  List.zipWith (inputWireSpec inputs layout.chipLeft) inputKeys layout.inputPositions
  ++ List.zipWith (outputWireSpec outputs layout.chipRight) outputKeys layout.outputPositions

/-- The positions used on one side of a package, in pin order. -/
def sidePositions (pins : List ICPin) (s : PinSide) : List Nat :=
  (pins.filter (fun p => p.side == s)).map (fun p => p.position)

/-- `xs` contains each of `lo, lo+1, ..., lo+n-1` exactly once and
nothing else. -/
def coversExactly (xs : List Nat) (lo n : Nat) : Bool :=
  xs.length == n && (List.range n).all (fun i => xs.count (lo + i) == 1)

/-- Spec wording (pin numbering invariant) for one package of `N` pins:
left-side positions are exactly `0..N/2-1`, right-side positions are
exactly `0..N/2-1`, the pin numbers cover `1..N` exactly once, and every
pin's side/position is derived from its number by the standard DIP rule. -/
def checkDIPPackage (pkg : ICPackage) : Bool :=
  let n := pkg.pinCount
  let half := n / 2
  coversExactly (sidePositions pkg.pins PinSide.left) 0 half &&
  coversExactly (sidePositions pkg.pins PinSide.right) 0 half &&
  coversExactly (pkg.pins.map (fun p => p.number)) 1 n &&
  pkg.pins.all (fun p =>
    if p.number ≤ half then p.side == PinSide.left && p.position + 1 == p.number
    else p.side == PinSide.right && p.position == n - p.number)

/-- A concrete layout used to instantiate the wire-derivation theorems:
three input anchors, one output anchor. -/
def sampleLayout : LayoutMetrics :=
  { inputPositions := [⟨2, 10⟩, ⟨2, 20⟩, ⟨2, 30⟩]
    outputPositions := [⟨40, 20⟩]
    chipLeft := 12
    chipRight := 28
    chipCenter := 20 }

/-! Theorems settling the claims. -/

/-- C1: for the counter experiment, a clock edge maps a 4-bit count `c`
to `(c+1) mod 16` when only CountUp is asserted, to `(c-1+16) mod 16`
when only CountDown is asserted, and leaves it unchanged when both or
neither is asserted or when there is no edge; the outputs `Q3..Q0` are
the binary digits of the resulting count, MSB first.  Moreover sixteen
consecutive CountUp edges from count 0 return the count to 0, and one
CountDown edge from 0 yields 15. -/
theorem counter_evaluate_c1 :
    (∀ (up down edge : Bool) (c : Nat),
      (counterLogic up down c edge).2 = counterCountSpec up down c edge)
    ∧ (∀ (up down edge : Bool) (c : Nat), c < 16 →
      counterLogic up down c edge =
        (counterDigitsSpec (counterCountSpec up down c edge),
          counterCountSpec up down c edge))
    ∧ Nat.iterate counterUpStep 16 0 = 0
    ∧ (counterLogic false true 0 true).2 = 15 := by
  refine ⟨?_, by decide, by decide, by decide⟩
  intro up down edge c
  simp only [counterLogic, counterCountSpec]
  split_ifs <;> try rfl
  exact congrArg Int.toNat (Int.tmod_eq_emod (by omega) (by norm_num))

/-- Witness for C1 at `c = 3` with a CountUp edge. -/
theorem counter_evaluate_c1_witness :
    3 < 16 ∧
      counterLogic true false 3 true =
        (counterDigitsSpec (counterCountSpec true false 3 true),
          counterCountSpec true false 3 true) :=
  ⟨by decide, counter_evaluate_c1.2.1 true false true 3 (by decide)⟩

/-- C4: for every boolean assignment to `A`, `B`, `Cin` (and any state and
clock-edge value), the full adder returns `Sum = A XOR B XOR Cin` and
`Cout = (A AND B) OR (Cin AND (A XOR B))`, so `(Cout, Sum)` is the binary
sum of the three input bits. -/
theorem full_adder_evaluate_c4 :
    ∀ (σ : Type) (s : σ) (edge a b cin : Bool),
      (fullAdderLogic a b cin s edge).1.sum = Bool.xor (Bool.xor a b) cin ∧
      (fullAdderLogic a b cin s edge).1.cout = ((a && b) || (cin && Bool.xor a b)) ∧
      cond (fullAdderLogic a b cin s edge).1.cout 2 0 +
          cond (fullAdderLogic a b cin s edge).1.sum 1 0 =
        cond a 1 0 + cond b 1 0 + cond cin 1 0 := by
  intro σ s edge a b cin
  cases a <;> cases b <;> cases cin <;> exact ⟨rfl, rfl, rfl⟩

/-- C5: whenever `Override` is true the traffic-light experiment returns
the all-red-and-yellow pattern (`R1,Y1,R2,Y2` true, `G1,G2` false) for
every state, sub-cycle and clock-edge value, and the returned state
fields equal the input state fields, so a subsequent call without
Override continues exactly from that state. -/
theorem traffic_override_c5 :
    ∀ (st sub : Nat) (edge : Bool),
      trafficLogic true st sub edge =
        ({ r1 := true, y1 := true, g1 := false, r2 := true, y2 := true, g2 := false },
          (st, sub))
      ∧ ∀ edge2 : Bool,
          trafficLogic false (trafficLogic true st sub edge).2.1
              (trafficLogic true st sub edge).2.2 edge2 =
            trafficLogic false st sub edge2 := by
  intro st sub edge
  exact ⟨rfl, fun _ => rfl⟩

/-- C10: experiment-specific state invariants are preserved by every
evaluation: a counter count in `[0,15]` stays in `[0,15]`, a
sequence-detector history of length at most 3 stays of length at most 3,
and an FSM accumulator in `[0,15]` stays in `[0,15]`, for every input
vector and clock-edge value. -/
theorem state_invariants_c10 :
    (∀ (up down edge : Bool) (c : Nat), c < 16 → (counterLogic up down c edge).2 < 16)
    ∧ (∀ (b r edge : Bool) (h : List Nat), h.length ≤ 3 →
        ((seqDetLogic b r h edge).2).length ≤ 3)
    ∧ (∀ (a1 a2 rst edge : Bool) (acc : Nat), acc < 16 →
        (fsmAccLogic a1 a2 rst acc edge).2 < 16) := by
  refine ⟨by decide, ?_, by decide⟩
  intro b r edge h hlen
  cases r
  · cases edge
    · simpa [seqDetLogic] using hlen
    · by_cases hc : (h ++ [if b then 1 else 0]).length > 3
      · simp only [seqDetLogic, Bool.false_eq_true, if_false, if_true, hc,
          List.length_drop]
        simp only [List.length_append, List.length_cons, List.length_nil]
        omega
      · simp only [seqDetLogic, Bool.false_eq_true, if_false, if_true, hc]
        simp only [List.length_append, List.length_cons, List.length_nil] at hc ⊢
        omega
  · simp [seqDetLogic]

/-- Witness for C10 at concrete in-range states. -/
theorem state_invariants_c10_witness :
    (15 < 16 ∧ (counterLogic true false 15 true).2 < 16)
    ∧ (([1, 0, 1] : List Nat).length ≤ 3 ∧
        ((seqDetLogic true false [1, 0, 1] true).2).length ≤ 3)
    ∧ (14 < 16 ∧ (fsmAccLogic true true false 14 true).2 < 16) :=
  ⟨⟨by decide, state_invariants_c10.1 true false true 15 (by decide)⟩,
   ⟨by decide, state_invariants_c10.2.1 true false true [1, 0, 1] (by decide)⟩,
   ⟨by decide, state_invariants_c10.2.2 true true false true 14 (by decide)⟩⟩

/-- The source's element-wise `Detected` test is exactly an equality test
against `[1, 0, 1]`. -/
theorem seqDetectCheck_eq (l : List Nat) : seqDetectCheck l = decide (l = [1, 0, 1]) := by
  apply Bool.eq_iff_iff.mpr
  rcases l with _ | ⟨a, _ | ⟨b, _ | ⟨c, _ | ⟨d, t⟩⟩⟩⟩ <;>
    simp [seqDetectCheck, and_assoc]

/-- C2: the sequence detector clears its history (and reports
`Detected = false`) whenever `Reset` is asserted, regardless of the
clock; without `Reset`, a clock edge appends the current bit sample and
drops the oldest element when the length would exceed 3, and no edge
leaves the history unchanged; `Detected` is true iff the resulting
history equals `[1, 0, 1]`.  Feeding `1,0,1` from an empty history
asserts `Detected` exactly on the third edge; feeding `1,1,1` never
asserts it. -/
theorem sequence_detector_c2 :
    (∀ (b : Bool) (h : List Nat) (edge : Bool), seqDetLogic b true h edge = (false, []))
    ∧ (∀ (b : Bool) (h : List Nat), (seqDetLogic b false h true).2 = seqHistorySpec b h)
    ∧ (∀ (b : Bool) (h : List Nat), (seqDetLogic b false h false).2 = h)
    ∧ (∀ (b r : Bool) (h : List Nat) (edge : Bool),
        (seqDetLogic b r h edge).1 = decide ((seqDetLogic b r h edge).2 = [1, 0, 1]))
    ∧ (seqDetRun [] [true, false, true]).1 = [false, false, true]
    ∧ (seqDetRun [] [true, true, true]).1 = [false, false, false] := by
  refine ⟨fun b h edge => rfl, ?_, fun b h => rfl, ?_, by decide, by decide⟩
  · intro b h
    simp [seqDetLogic, seqHistorySpec, List.drop_one]
  · intro b r h edge
    exact seqDetectCheck_eq _

/-- `bitSpec` agrees with `Nat.testBit`. -/
theorem bitSpec_eq_testBit (n k : Nat) : bitSpec n k = n.testBit k :=
  Nat.testBit_to_div_mod.symm

/-- The source's output extraction `Boolean((x >> k) & 1)` is binary
digit `k`. -/
theorem shiftOut_eq (x k : Nat) : (((x >>> k) &&& 1) != 0) = bitSpec x k := by
  rw [Nat.shiftRight_eq_div_pow, Nat.and_one_is_mod]
  unfold bitSpec
  rcases Nat.mod_two_eq_zero_or_one (x / 2 ^ k) with h | h <;> rw [h] <;> rfl

/-- Effect of one shift-register step on an individual bit below 8: bit 0
becomes the incoming data bit, bit `j+1` becomes the old bit `j`. -/
theorem shiftStep_testBit (r : Nat) (b : Bool) (j : Nat) (hj : j < 8) :
    (((r <<< 1) ||| (if b then 1 else 0)) &&& 255).testBit j
      = if j = 0 then b else r.testBit (j - 1) := by
  have h255 : (255 : Nat).testBit j = true := by interval_cases j <;> decide
  rw [Nat.testBit_land, Nat.testBit_or, Nat.testBit_shiftLeft, h255, Bool.and_true]
  cases j with
  | zero => cases b <;> simp
  | succ k =>
    have hd : (if b then (1 : Nat) else 0).testBit (k + 1) = false := by
      cases b
      · exact Nat.zero_testBit _
      · exact Nat.testBit_lt_two_pow (by
          calc (1 : Nat) < 2 ^ 1 := by decide
          _ ≤ 2 ^ (k + 1) := Nat.pow_le_pow_right (by decide) (by omega))
    rw [hd, Bool.or_false]
    simp

/-- `getD` at the length of the left part of an append picks the appended
element. -/
theorem getD_append_length {α : Type} (l : List α) (x : α) (d : α) :
    (l ++ [x]).getD l.length d = x := by
  induction l with
  | nil => rfl
  | cons a t ih => simp [ih]

/-- Bit `j < 8` of the register after clocking in the bit list `bs`
(oldest first): bits shifted in recently fill the low positions, with the
`i`-th most recent at position `i - 1`; older positions still show the
initial register. -/
theorem shiftRegRun_testBit (bs : List Bool) (r : Nat) :
    ∀ j, j < 8 →
      (shiftRegRun r bs).testBit j =
        if j < bs.length then bs.getD (bs.length - 1 - j) false
        else r.testBit (j - bs.length) := by
  induction bs using List.reverseRecOn with
  | nil => intro j hj; simp [shiftRegRun]
  | append_singleton bs b ih =>
    intro j hj
    have hrun : shiftRegRun r (bs ++ [b]) = (shiftRegLogic b (shiftRegRun r bs) true).2 := by
      simp [shiftRegRun, List.foldl_append]
    rw [hrun]
    have hstep : (shiftRegLogic b (shiftRegRun r bs) true).2
        = ((shiftRegRun r bs <<< 1) ||| (if b then 1 else 0)) &&& 255 := rfl
    rw [hstep, shiftStep_testBit _ _ _ hj]
    cases j with
    | zero =>
      have hlen : (0 : Nat) < (bs ++ [b]).length := by simp
      rw [if_pos rfl, if_pos hlen]
      have hidx : (bs ++ [b]).length - 1 - 0 = bs.length := by simp
      rw [hidx, getD_append_length]
    | succ k =>
      rw [if_neg (Nat.succ_ne_zero k), Nat.succ_sub_one, ih k (by omega)]
      by_cases hk : k < bs.length
      · rw [if_pos hk, if_pos (by simpa using Nat.succ_lt_succ hk)]
        have hidx : (bs ++ [b]).length - 1 - (k + 1) = bs.length - 1 - k := by
          simp; omega
        rw [hidx]
        have hlt : bs.length - 1 - k < bs.length := by omega
        rw [List.getD_eq_getElem _ _ hlt,
          List.getD_eq_getElem _ _ (show bs.length - 1 - k < (bs ++ [b]).length by
            simp; omega),
          List.getElem_append_left hlt]
      · rw [if_neg hk, if_neg (by simp; omega)]
        have : k + 1 - (bs ++ [b]).length = k - bs.length := by simp
        rw [this]

/-- C3: on a clock edge the shift register maps `r` to
`((r << 1) | d) & 0xFF` with `d` the data bit (new bit at position 0,
old bit 7 dropped), and holds without an edge; outputs `Q0..Q7` are the
binary digits 0..7 of the resulting register; and after `k ≥ 8` edges,
bit 7 equals the earliest retained bit, the one clocked in 8 edges ago. -/
theorem shift_register_c3 :
    (∀ (d : Bool) (r : Nat),
      (shiftRegLogic d r true).2 = ((r <<< 1) ||| (if d then 1 else 0)) &&& 0xFF)
    ∧ (∀ (d : Bool) (r : Nat), (shiftRegLogic d r false).2 = r)
    ∧ (∀ (d : Bool) (r : Nat) (edge : Bool),
        (shiftRegLogic d r edge).1 =
          { q0 := bitSpec (shiftRegLogic d r edge).2 0
            q1 := bitSpec (shiftRegLogic d r edge).2 1
            q2 := bitSpec (shiftRegLogic d r edge).2 2
            q3 := bitSpec (shiftRegLogic d r edge).2 3
            q4 := bitSpec (shiftRegLogic d r edge).2 4
            q5 := bitSpec (shiftRegLogic d r edge).2 5
            q6 := bitSpec (shiftRegLogic d r edge).2 6
            q7 := bitSpec (shiftRegLogic d r edge).2 7 })
    ∧ (∀ (bs : List Bool) (r : Nat), 8 ≤ bs.length →
        bitSpec (shiftRegRun r bs) 7 = bs.getD (bs.length - 8) false) := by
  refine ⟨fun d r => rfl, fun d r => rfl, ?_, ?_⟩
  · intro d r edge
    have base : (shiftRegLogic d r edge).1 =
        { q0 := (((shiftRegLogic d r edge).2 >>> 0) &&& 1) != 0
          q1 := (((shiftRegLogic d r edge).2 >>> 1) &&& 1) != 0
          q2 := (((shiftRegLogic d r edge).2 >>> 2) &&& 1) != 0
          q3 := (((shiftRegLogic d r edge).2 >>> 3) &&& 1) != 0
          q4 := (((shiftRegLogic d r edge).2 >>> 4) &&& 1) != 0
          q5 := (((shiftRegLogic d r edge).2 >>> 5) &&& 1) != 0
          q6 := (((shiftRegLogic d r edge).2 >>> 6) &&& 1) != 0
          q7 := (((shiftRegLogic d r edge).2 >>> 7) &&& 1) != 0 } := rfl
    rw [base]
    simp only [shiftOut_eq]
  · intro bs r hlen
    rw [bitSpec_eq_testBit, shiftRegRun_testBit bs r 7 (by omega),
      if_pos (by omega)]
    have : bs.length - 1 - 7 = bs.length - 8 := by omega
    rw [this]

/-- Witness for C3 on the spec's 9-edge scenario `[1,0,1,1,0,0,0,0,1]`:
bit 7 after the run equals the 2nd bit fed in, the earliest retained. -/
theorem shift_register_c3_witness :
    8 ≤ ([true, false, true, true, false, false, false, false, true] : List Bool).length
    ∧ bitSpec
          (shiftRegRun 0 [true, false, true, true, false, false, false, false, true]) 7
        = ([true, false, true, true, false, false, false, false, true] : List Bool).getD
            (([true, false, true, true, false, false, false, false, true] :
              List Bool).length - 8) false :=
  ⟨by decide,
    shift_register_c3.2.2.2 [true, false, true, true, false, false, false, false, true] 0
      (by decide)⟩

/-- Counterexample for C6: the experiments whose `hasClock` flag is not
true number five, not four, and the fifth of them — the SR latch — does
change its state in a plain evaluation (asserting `Set1` from the all-low
state), so the claim as stated fails on the code. -/
theorem combinational_purity_c6_counterexample :
    ((experiments.filter (fun e => !e.hasClock)).map (fun e => e.id)
        = [("logic-gates"), ("full-adder"), ("multiplexer"), ("priority-encoder"),
            ("sr-latch")])
    ∧ (experiments.filter (fun e => !e.hasClock)).length ≠ 4
    ∧ (srLatchLogic true false false false false false false false).2
        ≠ (false, false, false) :=
  ⟨by decide, by decide, by decide⟩

/-- C6 (amended): the four stateless combinational experiments
(logic-gates, full-adder, multiplexer, priority-encoder) return a
`newState` equal to the input state for every input vector and every
clock-edge value; the SR latch, though also lacking the `hasClock` flag,
latches its outputs and is excluded. -/
theorem combinational_purity_c6_amended :
    ∀ (σ : Type) (s : σ) (edge a b c sel i0 i1 i2 i3 cin : Bool),
      (logicGatesLogic a b c s edge).2 = s ∧
      (fullAdderLogic a b cin s edge).2 = s ∧
      (multiplexerLogic sel i0 i1 s edge).2 = s ∧
      (priorityEncoderLogic i0 i1 i2 i3 s edge).2 = s := by
  intro σ s edge a b c sel i0 i1 i2 i3 cin
  exact ⟨rfl, rfl, rfl, rfl⟩

/-- C8: every package of the registry satisfies the DIP pin-numbering
invariant — left-side positions are exactly `0..N/2-1`, right-side
positions exactly `0..N/2-1`, pin numbers cover `1..N` exactly once, and
each pin's side and position are derived from its number by the standard
dual-inline rule. -/
theorem pin_numbering_c8 : IC_LIBRARY.all checkDIPPackage = true := by decide

/-- Every element produced by `forEachIdx` is an application of the
supplied function. -/
theorem forEachIdx_mem {α β : Type} {f : Nat → α → β} {y : β} :
    ∀ {s : Nat} {ps : List α}, y ∈ forEachIdx f s ps → ∃ i a, y = f i a := by
  intro s ps
  induction ps generalizing s with
  | nil => intro hy; simp [forEachIdx] at hy
  | cons p rest ih =>
    intro hy
    rw [forEachIdx, List.mem_cons] at hy
    rcases hy with rfl | hy
    · exact ⟨s, p, rfl⟩
    · exact ih hy

/-- `forEachIdx` preserves the element count. -/
theorem forEachIdx_length {α β : Type} (f : Nat → α → β) :
    ∀ (s : Nat) (ps : List α), (forEachIdx f s ps).length = ps.length := by
  intro s ps
  induction ps generalizing s with
  | nil => rfl
  | cons p rest ih => simp [forEachIdx, ih]

/-- Layout geometry of the pin-mapped revision of the experiments module
(`src/unnamed/part_000`): like `LayoutMetrics` but with the optional
`pinPositions` map from pin number to resolved pin coordinate. -/
structure PinLayoutMetrics where
  inputPositions : List Point
  outputPositions : List Point
  chipLeft : ℚ
  chipRight : ℚ
  chipCenter : ℚ
  pinPositions : Option (List (Nat × Point))
deriving DecidableEq

/-- `layout.pinPositions?.get(pinNum)`: optional-chained `Map` lookup —
`undefined` when the map itself is absent or has no entry for the pin. -/
def pinGet (m : Option (List (Nat × Point))) (n : Nat) : Option Point :=
  match m with
  | none => none
  | some l => (l.find? (fun p => p.1 == n)).map Prod.snd

/-- JavaScript record lookup on a `string → number` object literal
(`{ A: 1, B: 2, C: 4 }[inputKey]`), `undefined` for a missing key. -/
def natRecordGet (r : List (String × Nat)) (k : String) : Option Nat :=
  (r.find? (fun p => p.1 == k)).map Prod.snd

/-- `createPinWire(fromX, fromY, pinPosition, active, delay)` from the
pin-mapped experiments module (`src/unnamed/part_000`): when the pin
position is unavailable it falls back to a degenerate wire whose points
list holds only the starting anchor; otherwise it delegates to
`createOrthogonalWire` toward the pin. -/
def createPinWire (fromX fromY : ℚ) (pinPosition : Option Point) (active : Bool)
    (delay : ℚ) : Wire :=
  match pinPosition with
  | none => { points := [⟨fromX, fromY⟩], active := active, delay := delay }
  | some pp => createOrthogonalWire fromX fromY pp.x pp.y active delay

/-- The `getWires` function of the `logic-gates` experiment in the
pin-mapped experiments module (`src/unnamed/part_000`): one
`createPinWire` per input anchor toward the pin mapped to that input
(`A↦1, B↦2, C↦4`, resolved through `pinPositions`), then one per output
anchor from pin 3 (falling back to the chip edge coordinates when that
pin's geometry is missing — the target point is always defined there). -/
def logicGatesPinWires (inputs outputs : List (String × Bool))
    (layout : PinLayoutMetrics) : List Wire :=
  forEachIdx
    (fun idx pos =>
      let inputKey := ([("A"), ("B"), ("C")] : List String).getD idx ("")
      let pinNum := natRecordGet [(("A"), 1), (("B"), 2), (("C"), 4)] inputKey
      let pinPos :=
        match pinNum with
        | some n => pinGet layout.pinPositions n
        | none => none
      createPinWire pos.x pos.y pinPos (recordGet inputs inputKey) 0)
    0 layout.inputPositions
  ++
  forEachIdx
    (fun _ pos =>
      let pinPos := pinGet layout.pinPositions 3
      createPinWire ((pinPos.map (fun p => p.x)).getD layout.chipRight)
        ((pinPos.map (fun p => p.y)).getD pos.y) (some ⟨pos.x, pos.y⟩)
        (recordGet outputs ("Y")) (3 / 10))
    0 layout.outputPositions

/-- An in-contract layout whose pin-position map has geometry only for
the output pin 3: every declared input id's pin is unavailable. -/
def pinlessLayout : PinLayoutMetrics :=
  { inputPositions := [⟨2, 10⟩, ⟨2, 20⟩, ⟨2, 30⟩]
    outputPositions := [⟨40, 20⟩]
    chipLeft := 12
    chipRight := 28
    chipCenter := 20
    pinPositions := some [(3, ⟨30, 20⟩)] }

/-- The all-inactive empty wire, used only as a `getD` default. -/
def nullWire : Wire :=
  { points := [], active := false, delay := 0 }

/-- C9: when a declared input/output id's pin geometry is unavailable,
wire derivation falls back to a degenerate wire whose points list
contains only the declared anchor, and never fails: `createPinWire`
without a pin position returns exactly the single-point wire at the
anchor, and the pin-mapped logic-gates `getWires`, on a layout whose map
lacks the input pins, still returns its full wire list, whose first
element is a single-point wire anchored at input A's anchor with
`active` equal to A's signal value. -/
theorem wire_fallback_c9 :
    (∀ (fromX fromY : ℚ) (active : Bool) (delay : ℚ),
      createPinWire fromX fromY none active delay
        = { points := [⟨fromX, fromY⟩], active := active, delay := delay })
    ∧ ∀ (inputs outputs : List (String × Bool)),
        (logicGatesPinWires inputs outputs pinlessLayout).length = 4
        ∧ (logicGatesPinWires inputs outputs pinlessLayout).getD 0 nullWire
            = { points := [⟨2, 10⟩], active := recordGet inputs ("A"), delay := 0 }
        ∧ ((logicGatesPinWires inputs outputs pinlessLayout).getD 0 nullWire).points.length
            = 1 := by
  refine ⟨fun fromX fromY active delay => rfl, fun inputs outputs => ⟨rfl, rfl, rfl⟩⟩

/-- The input half of a `getWires` body equals the spec's one-wire-per-
declared-input list, provided enough keys exist. -/
theorem forEachIdx_input_wires (ins : List (String × Bool)) (cl : ℚ) (ks : List String) :
    ∀ (ps : List Point) (s : Nat), s + ps.length ≤ ks.length →
      forEachIdx
          (fun idx pos =>
            createOrthogonalWire pos.x pos.y cl pos.y
              (recordGet ins (ks.getD idx (""))) 0)
          s ps
        = List.zipWith (inputWireSpec ins cl) (ks.drop s) ps := by
  intro ps
  induction ps with
  | nil => intro s h; simp [forEachIdx]
  | cons p rest ih =>
    intro s h
    have hs : s < ks.length := by
      simp only [List.length_cons] at h; omega
    rw [forEachIdx, List.drop_eq_getElem_cons hs, List.zipWith_cons_cons]
    refine congrArg₂ _ ?_ (ih (s + 1) (by simp only [List.length_cons] at h; omega))
    rw [List.getD_eq_getElem _ _ hs]
    rfl

/-- The output half of a `getWires` body equals the spec's one-wire-per-
declared-output list, provided enough keys exist. -/
theorem forEachIdx_output_wires (outs : List (String × Bool)) (cr : ℚ) (ks : List String) :
    ∀ (ps : List Point) (s : Nat), s + ps.length ≤ ks.length →
      forEachIdx
          (fun idx pos =>
            createOrthogonalWire cr pos.y pos.x pos.y
              (recordGet outs (ks.getD idx (""))) (3 / 10))
          s ps
        = List.zipWith (outputWireSpec outs cr) (ks.drop s) ps := by
  intro ps
  induction ps with
  | nil => intro s h; simp [forEachIdx]
  | cons p rest ih =>
    intro s h
    have hs : s < ks.length := by
      simp only [List.length_cons] at h; omega
    rw [forEachIdx, List.drop_eq_getElem_cons hs, List.zipWith_cons_cons]
    refine congrArg₂ _ ?_ (ih (s + 1) (by simp only [List.length_cons] at h; omega))
    rw [List.getD_eq_getElem _ _ hs]
    rfl

/-- C7: for every experiment of the registry, given a layout whose anchor
lists match the declared input/output counts, `getWires` returns exactly
one wire per declared input in declaration order followed by one per
declared output in declaration order — each a 4-point polyline bending at
the mean of the endpoint x-coordinates, with `active` equal to the
corresponding signal value, delay 0 on input wires and the fixed non-zero
delay 0.3 on output wires — hence `#inputs + #outputs` wires in total. -/
theorem wires_c7 :
    ∀ e ∈ experiments, ∀ (ins outs : List (String × Bool)) (layout : LayoutMetrics),
      layout.inputPositions.length = e.inputIds.length →
      layout.outputPositions.length = e.outputIds.length →
      getWiresGeneric e.inputIds e.outputIds ins outs layout
          = wiresSpec e.inputIds e.outputIds ins outs layout
        ∧ (getWiresGeneric e.inputIds e.outputIds ins outs layout).length
            = e.inputIds.length + e.outputIds.length
        ∧ (3 / 10 : ℚ) ≠ 0 := by
  intro e _ ins outs layout h1 h2
  refine ⟨?_, ?_, by norm_num⟩
  · rw [getWiresGeneric, wiresSpec,
      forEachIdx_input_wires ins layout.chipLeft e.inputIds layout.inputPositions 0
        (by omega),
      forEachIdx_output_wires outs layout.chipRight e.outputIds layout.outputPositions 0
        (by omega),
      List.drop_zero, List.drop_zero]
  · rw [getWiresGeneric, List.length_append, forEachIdx_length, forEachIdx_length,
      h1, h2]

/-- Concrete signal records for the C7 witness. -/
def sampleInputs : List (String × Bool) := [(("A"), true), (("B"), false), (("C"), true)]

/-- Concrete output record for the C7 witness. -/
def sampleOutputs : List (String × Bool) := [(("Y"), true)]

/-- Witness for C7 at the logic-gates experiment with a concrete layout
and concrete signal records. -/
theorem wires_c7_witness :
    (⟨("logic-gates"), false, [("A"), ("B"), ("C")], [("Y")]⟩ : ExperimentMeta)
        ∈ experiments
    ∧ (getWiresGeneric [("A"), ("B"), ("C")] [("Y")] sampleInputs sampleOutputs
            sampleLayout
          = wiresSpec [("A"), ("B"), ("C")] [("Y")] sampleInputs sampleOutputs
              sampleLayout
        ∧ (getWiresGeneric [("A"), ("B"), ("C")] [("Y")] sampleInputs sampleOutputs
              sampleLayout).length
            = ([("A"), ("B"), ("C")] : List String).length
                + ([("Y")] : List String).length
        ∧ (3 / 10 : ℚ) ≠ 0) :=
  ⟨by decide,
    wires_c7 ⟨("logic-gates"), false, [("A"), ("B"), ("C")], [("Y")]⟩ (by decide)
      sampleInputs sampleOutputs sampleLayout (by decide) (by decide)⟩

end Simulator
